import Mathlib

/-!
# PatientConnectAPI — verification of the patient-visit core

Shallow embedding of the patient identity-resolution / visit-ledger code of
the PatientConnectAPI repository (files `api/patients/patient_routes.py` and
`api/patients/patient_models.py`), together with theorems checking the
natural-language specification against it.

Modelling conventions:
* Python dicts stored in the document store become Lean structures; a field
  that may be absent from a stored document is an `Option` (accessing a
  missing key raises `KeyError`, which we model as `Except.error`).
* Python floats (`age`, `weight`, `temperature`) are modelled as `Rat`; none
  of the verified properties performs float arithmetic on them.
* The Mongo collection is a list of patient documents in insertion order;
  `find_one`/`update_one` act on the first matching document, `$push`
  appends to an array field (creating it when absent), and the positional
  operator `$` targets the first array element matched by the query, as in
  MongoDB.
* `datetime.now()` is a parameter: the route receives the current local
  time as a `LocalTime` value and formats it with the exact strftime
  pattern used at `patient_routes.py:191`.
-/

namespace PatientConnect

/-! ## Name matching (patient_routes.py lines 91-93 and 227-230)

Both routes inline the same comparison:
`set(name.lower() for name in a.split()) == set(name.lower() for name in b.split())`.
Python's `str.split()` with no argument splits on runs of whitespace and
drops empty pieces; `str.lower()` lowercases each character (ASCII model). -/

/-- `str.lower()` (ASCII model): lowercase every character. -/
def pyLower (s : String) : String :=
  String.mk (s.data.map Char.toLower)

/-- Helper for `pySplitWs`: walk the characters, accumulating the current
token in reverse; whitespace ends a token, empty pieces are dropped. -/
def splitWsAux : List Char → List Char → List String
  | [], acc => if acc.isEmpty then [] else [String.mk acc.reverse]
  | c :: cs, acc =>
    if c.isWhitespace then
      if acc.isEmpty then splitWsAux cs []
      else String.mk acc.reverse :: splitWsAux cs []
    else splitWsAux cs (c :: acc)

/-- `str.split()` with no argument: split on runs of whitespace, dropping
empty pieces. -/
def pySplitWs (s : String) : List String :=
  splitWsAux s.data []

/-- The list of lowercased whitespace-separated tokens of a string:
`[name.lower() for name in s.split()]`. -/
def lowerTokens (s : String) : List String :=
  (pySplitWs s).map pyLower

/-- `set(name.lower() for name in s.split())`. -/
def nameTokenSet (s : String) : Finset String :=
  (lowerTokens s).toFinset

/-- The inlined name comparison used by `get_patient` (lines 91-93) and
`add_visit` (lines 227-230): token sets compared for equality. -/
def namesMatch (a b : String) : Bool :=
  decide (nameTokenSet a = nameTokenSet b)

/-! ## Data model (patient_models.py)

`VisitDetails`, `PatientBio`, `PatientVitals`, `TestReport`,
`MedicationDetails`, `VisitSearch`, `VisitUpload` and the stored document
shapes `Child` / `Patient`.  The pydantic `Optional[...] = None` fields are
`Option`s. -/

/-- `TestReport` (patient_models.py lines 80-88). -/
structure TestReport where
  test_name : String
  test_results : String
deriving DecidableEq, Repr

/-- `MedicationDetails` (patient_models.py lines 90-101). -/
structure MedicationDetails where
  medication_name : String
  medication_dosage : Int
  medication_frequency : Int
  medication_duration : Int
  medication_instructions : Option String
deriving DecidableEq, Repr

/-- `PatientBio` (patient_models.py lines 53-67); `age` is a float with
pydantic bounds `gt=0.0, lt=120.0`, modelled as `Rat`. -/
structure PatientBio where
  name : String
  age : Rat
  gender : String
deriving DecidableEq, Repr

/-- `PatientVitals` (patient_models.py lines 69-78).  Note that
`blood_pressure` is declared as a bare `str`: the model carries no format
validator. -/
structure PatientVitals where
  blood_pressure : String
  weight : Rat
  temperature : Rat
deriving DecidableEq, Repr

/-- `VisitDetails` (patient_models.py lines 103-162): one visit record.
`facility_name`, `facility_type` and `visit_date` default to `None` and are
overwritten by the server before storing. -/
structure VisitDetails where
  facility_name : Option String
  facility_type : Option String
  visit_date : Option String
  patient_bio : PatientBio
  visit_vitals : PatientVitals
  visit_clinical_notes : String
  visit_labs : Option (List TestReport)
  visit_investigations : Option (List TestReport)
  visit_medication : Option (List MedicationDetails)
deriving DecidableEq, Repr

/-- `VisitSearch` (patient_models.py lines 17-51): the search key. -/
structure VisitSearch where
  id_number : Int
  name : String
  is_child : Bool
  parent_name : Option String
deriving DecidableEq, Repr

/-- `VisitUpload` (patient_models.py lines 170-175): body of the
`/patients/visit` route. -/
structure VisitUpload where
  patient_search : VisitSearch
  visit_details : VisitDetails
deriving DecidableEq, Repr

/-- Authenticated caller context (`User`, user_models.py lines 40-52):
only the facility fields are used by the patient routes. -/
structure User where
  facility_name : String
  facility_type : String
deriving DecidableEq, Repr

/-! ### Pydantic validation

The only custom validator on the write/read request models is
`VisitSearch.get_parent_name` (patient_models.py lines 26-33); the field
constraints are `age` in `(0, 120)` and `gender` a literal.  FastAPI runs
these during request parsing, before the route body (and hence before any
store access). -/

/-- The `get_parent_name` validator (patient_models.py lines 26-33):
raises `ValueError` exactly when `is_child` is `True` and `parent_name` is
`None` or the literal string `"null"`.  `true` = accepted. -/
def VisitSearch.parentNameOk (s : VisitSearch) : Bool :=
  !(s.is_child && (s.parent_name == none || s.parent_name == some "null"))

/-- Field constraints of `PatientBio`: `age` has `gt=0.0, lt=120.0` and
`gender` is `Literal['male', 'female']`. -/
def PatientBio.fieldsOk (b : PatientBio) : Bool :=
  decide (0 < b.age) && decide (b.age < 120) &&
    (b.gender == "male" || b.gender == "female")

/-- Field constraints of `PatientVitals`: all three fields are bare
`str`/`float` declarations, so pydantic only checks their types — in
particular no blood-pressure format check exists. -/
def PatientVitals.fieldsOk (_v : PatientVitals) : Bool :=
  true

/-- Validation of a whole `VisitDetails` body. -/
def VisitDetails.fieldsOk (vd : VisitDetails) : Bool :=
  vd.patient_bio.fieldsOk && vd.visit_vitals.fieldsOk

/-- Validation of the `/patients/visit` request body (`VisitUpload`). -/
def VisitUpload.fieldsOk (v : VisitUpload) : Bool :=
  v.patient_search.parentNameOk && v.visit_details.fieldsOk

/-! ### model_dump serialization

`PatientBio` carries a `field_serializer` that stores `name` in title case
(patient_models.py lines 62-64); `Child` and `Patient` have no serializer,
so child and parent names are stored as received.  `.model_dump()` applies
serializers recursively. -/

/-- Helper for `titleCase`: the boolean records whether the previous
character was alphabetic. -/
def titleAux : List Char → Bool → List Char
  | [], _ => []
  | c :: cs, prevAlpha =>
    if c.isAlpha then
      (if prevAlpha then c.toLower else c.toUpper) :: titleAux cs true
    else
      c :: titleAux cs false

/-- `str.title()` (ASCII model): uppercase a letter that starts a word,
lowercase the rest. -/
def titleCase (s : String) : String :=
  String.mk (titleAux s.data false)

/-- `PatientBio.model_dump()`: the `name` field is serialized via
`name.title()`. -/
def dumpBio (b : PatientBio) : PatientBio :=
  { b with name := titleCase b.name }

/-- `VisitDetails.model_dump()`: recursively dump `patient_bio`; no other
sub-model has a serializer. -/
def dumpVisit (vd : VisitDetails) : VisitDetails :=
  { vd with patient_bio := dumpBio vd.patient_bio }

/-! ### Server-side visit-date stamp (patient_routes.py lines 189-191)

`visit_details.visit_date = datetime.now().strftime("%a %d %b %Y, %I:%M%p")`.
We model the naive local time returned by `datetime.now()` as a value. -/

/-- A naive local timestamp as used by `datetime.now()`; `weekday` is
`date.weekday()` (0 = Monday), `month` is the calendar month minus one. -/
structure LocalTime where
  weekday : Fin 7
  day : Nat
  month : Fin 12
  year : Nat
  hour : Nat
  minute : Nat
deriving DecidableEq, Repr

/-- `%a`: abbreviated weekday name. -/
def weekdayAbbrev (w : Fin 7) : String :=
  ["Mon", "Tue", "Wed", "Thu", "Fri", "Sat", "Sun"].getD w ""

/-- `%b`: abbreviated month name. -/
def monthAbbrev (m : Fin 12) : String :=
  ["Jan", "Feb", "Mar", "Apr", "May", "Jun",
   "Jul", "Aug", "Sep", "Oct", "Nov", "Dec"].getD m ""

/-- Zero-pad a number to two digits, as `%d`, `%I` and `%M` do. -/
def pad2 (n : Nat) : String :=
  if n < 10 then "0" ++ toString n else toString n

/-- `%I`: the hour on a 12-hour clock (01-12). -/
def hour12 (h : Nat) : Nat :=
  if h % 12 == 0 then 12 else h % 12

/-- `strftime("%a %d %b %Y, %I:%M%p")` on a naive local time (`%Y` without
zero-padding, as on the Linux builds this service targets). -/
def formatVisitDate (t : LocalTime) : String :=
  weekdayAbbrev t.weekday ++ " " ++ pad2 t.day ++ " " ++ monthAbbrev t.month
    ++ " " ++ toString t.year ++ ", " ++ pad2 (hour12 t.hour) ++ ":"
    ++ pad2 t.minute ++ (if t.hour < 12 then "AM" else "PM")

/-- Lines 189-191 of `add_visit`: overwrite `facility_name`,
`facility_type` and `visit_date` from the authenticated caller's context
and the current time, before any branch runs. -/
def stampVisit (u : User) (now : LocalTime) (vd : VisitDetails) : VisitDetails :=
  { vd with
      facility_name := some u.facility_name
      facility_type := some u.facility_type
      visit_date := some (formatVisitDate now) }

/-! ### The document store

Stored documents mirror `Patient.model_dump()` / `Child.model_dump()`
(patient_models.py lines 177-216); array-valued fields are `Option`al to
model key absence in the schemaless store.  (The pydantic `id` field always
dumps to `None` and Mongo's generated `_id` is projected away by every
query in the routes, so neither is modelled.)  The collection is the list
of documents in insertion order; `find_one` and `update_one` act on the
first document matching the filter, as MongoDB does. -/

/-- A stored dependent: `Child.model_dump()`. -/
structure ChildDoc where
  name : String
  visits : Option (List VisitDetails)
deriving DecidableEq, Repr

/-- A stored patient document: `Patient.model_dump()`. -/
structure PatientDoc where
  id_number : Int
  name : String
  dependents : Option (List ChildDoc)
  visits : Option (List VisitDetails)
deriving DecidableEq, Repr

/-- The patients collection, in insertion order. -/
abbrev Store := List PatientDoc

/-- `find_one(filter={'id_number': n})`: first document whose `id_number`
equals `n` (projection only hides fields, which the structure keeps). -/
def findOne (store : Store) (idn : Int) : Option PatientDoc :=
  store.find? (fun d => d.id_number == idn)

/-- The store calls the two patient routes can issue; the update shapes are
exactly the three `update_one` invocations of `add_visit`. -/
inductive StoreCall where
  | findById (idn : Int)
  | insertDoc (doc : PatientDoc)
  | pushVisits (idn : Int) (v : VisitDetails)
  | pushDependents (idn : Int) (c : ChildDoc)
  | pushChildVisit (idn : Int) (childName : String) (v : VisitDetails)
deriving DecidableEq, Repr

/-- Whether a store call mutates the collection. -/
def StoreCall.isWrite : StoreCall → Bool
  | .findById _ => false
  | _ => true

/-- Update the first element satisfying `p` (as Mongo's `update_one` and
its positional operator do); no match leaves the list unchanged. -/
def updateFirst {α : Type} (p : α → Bool) (f : α → α) : List α → List α
  | [] => []
  | x :: xs => if p x then f x :: xs else x :: updateFirst p f xs

/-- `$push` onto an array field: appends, creating the array when the
field is absent. -/
def pushOpt {α : Type} (xs : Option (List α)) (v : α) : Option (List α) :=
  some (xs.getD [] ++ [v])

/-- MongoDB semantics of each store call against the collection. -/
def applyCall (store : Store) : StoreCall → Store
  | .findById _ => store
  | .insertDoc d => store ++ [d]
  | .pushVisits idn v =>
      updateFirst (fun d => d.id_number == idn)
        (fun d => { d with visits := pushOpt d.visits v }) store
  | .pushDependents idn c =>
      updateFirst (fun d => d.id_number == idn)
        (fun d => { d with dependents := pushOpt d.dependents c }) store
  | .pushChildVisit idn nm v =>
      updateFirst
        (fun d => d.id_number == idn
          && (d.dependents.getD []).any (fun c => c.name == nm))
        (fun d =>
          { d with
              dependents := some (updateFirst (fun c => c.name == nm)
                (fun c => { c with visits := pushOpt c.visits v })
                (d.dependents.getD [])) })
        store

/-- Run a sequence of store calls. -/
def applyCalls (store : Store) (calls : List StoreCall) : Store :=
  calls.foldl applyCall store

/-! ### The read path: `get_patient` (patient_routes.py lines 25-112) -/

/-- The visibility filter (lines 94-97 / 104-108): keep every visit whose
`facility_name` differs from the requesting facility's name (Python `!=`,
case-sensitive; a missing/null name also differs from any string). -/
def filterVisible (visits : List VisitDetails) (facilityName : String) : List VisitDetails :=
  visits.filter (fun v => v.facility_name != some facilityName)

/-- The body of `get_patient`: the pair is the trace of store calls issued
and the route's outcome (`KeyError` surfaces as `.error`).  The child
branch scans `dependents` for the first name match and filters that
child's visits; every unmatched path falls through to `{'visits': []}`. -/
def getPatient (store : Store) (u : User) (p : VisitSearch) :
    List StoreCall × Except String (List VisitDetails) :=
  if p.is_child then
    ([.findById p.id_number],
      match findOne store p.id_number with
      | some doc =>
        match doc.dependents with
        | none => .error "KeyError: dependents"
        | some deps =>
          match deps.find? (fun c => namesMatch c.name p.name) with
          | some c =>
            match c.visits with
            | none => .error "KeyError: visits"
            | some vs => .ok (filterVisible vs u.facility_name)
          | none => .ok []
      | none => .ok [])
  else
    ([.findById p.id_number],
      match findOne store p.id_number with
      | some doc =>
        match doc.visits with
        | none => .error "KeyError: visits"
        | some vs => .ok (filterVisible vs u.facility_name)
      | none => .ok [])

/-- The `/patients/search` route: FastAPI validates the `VisitSearch` body
(running `get_parent_name`) before the route body executes. -/
def searchVisits (store : Store) (u : User) (p : VisitSearch) :
    List StoreCall × Except String (List VisitDetails) :=
  if p.parentNameOk then getPatient store u p
  else ([], .error "ValidationError")

/-! ### The write path: `add_visit` (patient_routes.py lines 118-265) -/

/-- The body of `add_visit` after the stamping of lines 189-191, returning
the ordered trace of store calls.  The second `find_one` of the child
branch (lines 212-214) re-reads the same first `id_number` match, so the
document it yields is the one `findOne` already returned; constructing
`Patient(name=patient.parent_name, ...)` with a `None` parent name would
raise a pydantic error before the insert (unreachable behind the route's
validation). -/
def addVisit (store : Store) (u : User) (now : LocalTime) (visit : VisitUpload) :
    Except String (List StoreCall) :=
  let psearch := visit.patient_search
  let vd := stampVisit u now visit.visit_details
  if psearch.is_child then
    match findOne store psearch.id_number with
    | none =>
      match psearch.parent_name with
      | none => .error "ValidationError: Patient.name"
      | some pn =>
        .ok [.findById psearch.id_number,
             .insertDoc
               { id_number := psearch.id_number,
                 name := pn,
                 dependents := some [{ name := psearch.name, visits := some [dumpVisit vd] }],
                 visits := some [] }]
    | some doc =>
      match doc.dependents with
      | none => .error "KeyError: dependents"
      | some deps =>
        if deps.length == 0 then
          .ok [.findById psearch.id_number, .findById psearch.id_number,
               .pushDependents psearch.id_number
                 { name := psearch.name, visits := some [dumpVisit vd] }]
        else
          match deps.find? (fun c => namesMatch c.name psearch.name) with
          | some c =>
            .ok [.findById psearch.id_number, .findById psearch.id_number,
                 .pushChildVisit psearch.id_number c.name (dumpVisit vd)]
          | none =>
            .ok [.findById psearch.id_number, .findById psearch.id_number,
                 .pushDependents psearch.id_number
                   { name := psearch.name, visits := some [dumpVisit vd] }]
  else
    match findOne store psearch.id_number with
    | none =>
      .ok [.findById psearch.id_number,
           .insertDoc
             { id_number := psearch.id_number,
               name := psearch.name,
               dependents := some [],
               visits := some [dumpVisit vd] }]
    | some _ =>
      .ok [.findById psearch.id_number,
           .pushVisits psearch.id_number (dumpVisit vd)]

/-- The `/patients/visit` route: FastAPI validates the `VisitUpload` body
before the route body executes, so an invalid body is rejected with no
store call. -/
def postVisit (store : Store) (u : User) (now : LocalTime) (visit : VisitUpload) :
    Except String (List StoreCall) :=
  if visit.fieldsOk then addVisit store u now visit
  else .error "ValidationError"

/-! ### Well-formedness and append-only extension -/

/-- A stored dependent has its `visits` array present. -/
def ChildDoc.wf (c : ChildDoc) : Bool :=
  c.visits.isSome

/-- A stored patient document has `visits` and `dependents` arrays present,
and well-formed dependents. -/
def PatientDoc.wf (d : PatientDoc) : Bool :=
  d.visits.isSome && d.dependents.isSome && (d.dependents.getD []).all ChildDoc.wf

/-- Every document of the collection is well-formed. -/
def storeWf (s : Store) : Bool :=
  s.all PatientDoc.wf

/-- `listExtends xs ys`: `xs` is a prefix of `ys` (entries preserved in
place, new ones only appended). -/
def listExtends {α : Type} [DecidableEq α] : List α → List α → Bool
  | [], _ => true
  | _ :: _, [] => false
  | x :: xs, y :: ys => decide (x = y) && listExtends xs ys

/-- Extension of an optional array: an absent array may become anything
that was appended to nothing; a present one may only grow at the end. -/
def optListExtends {α : Type} [DecidableEq α] : Option (List α) → Option (List α) → Bool
  | none, _ => true
  | some _, none => false
  | some xs, some ys => listExtends xs ys

/-- A dependent is preserved: same name, visits only appended. -/
def childExtends (c c' : ChildDoc) : Bool :=
  decide (c.name = c'.name) && optListExtends c.visits c'.visits

/-- Pairwise preservation of a dependents list, allowing appends. -/
def depsExtends : List ChildDoc → List ChildDoc → Bool
  | [], _ => true
  | _ :: _, [] => false
  | c :: cs, c' :: cs' => childExtends c c' && depsExtends cs cs'

/-- Extension of an optional dependents array. -/
def optDepsExtends : Option (List ChildDoc) → Option (List ChildDoc) → Bool
  | none, _ => true
  | some _, none => false
  | some xs, some ys => depsExtends xs ys

/-- A patient document is preserved: identity fields unchanged, both
ledgers only appended to. -/
def docExtends (d d' : PatientDoc) : Bool :=
  decide (d.id_number = d'.id_number) && decide (d.name = d'.name)
    && optListExtends d.visits d'.visits && optDepsExtends d.dependents d'.dependents

/-- Pointwise preservation of the collection, allowing appended documents:
every pre-existing document is still at its index, with every stored visit
record intact. -/
def storeExtends : Store → Store → Bool
  | [], _ => true
  | _ :: _, [] => false
  | d :: ds, d' :: ds' => docExtends d d' && storeExtends ds ds'

/-- All visit records contained in a stored dependent. -/
def ChildDoc.records (c : ChildDoc) : List VisitDetails :=
  c.visits.getD []

/-- All visit records contained in a stored patient document. -/
def PatientDoc.records (d : PatientDoc) : List VisitDetails :=
  d.visits.getD [] ++ (d.dependents.getD []).flatMap ChildDoc.records

/-- The visit records a store call writes into the collection. -/
def StoreCall.newRecords : StoreCall → List VisitDetails
  | .findById _ => []
  | .insertDoc d => d.records
  | .pushVisits _ v => [v]
  | .pushDependents _ c => c.records
  | .pushChildVisit _ _ v => [v]

/-! ### Concrete sample values, used to instantiate the theorems below -/

/-- Sample bio for a pediatric patient. -/
def exChildBio : PatientBio :=
  { name := "Amina Wanjiru", age := 3, gender := "female" }

/-- Sample vitals with a well-formed blood pressure. -/
def exVitals : PatientVitals :=
  { blood_pressure := "100/60", weight := 14, temperature := 37 }

/-- A caller-supplied visit body (facility fields left empty). -/
def exDetails : VisitDetails :=
  { facility_name := none, facility_type := none, visit_date := none,
    patient_bio := exChildBio, visit_vitals := exVitals,
    visit_clinical_notes := "well child clinic", visit_labs := none,
    visit_investigations := none, visit_medication := none }

/-- The facility that recorded the example child visit. -/
def exUserA : User := { facility_name := "FacilityA", facility_type := "hospital" }

/-- A different facility performing the example search. -/
def exUserB : User := { facility_name := "FacilityB", facility_type := "clinic" }

/-- A stored visit record `v1 from FacilityA`, as in the spec's example. -/
def exVisitA : VisitDetails :=
  { exDetails with
    facility_name := some "FacilityA", facility_type := some "hospital",
    visit_date := some "Tue 16 Jul 2024, 03:51PM" }

/-- A stored parent with `dependents = [{name: "Amina Wanjiru", visits: [v1]}]`. -/
def exParentDoc : PatientDoc :=
  { id_number := 555, name := "Grace Wanjiru",
    dependents := some [{ name := "Amina Wanjiru", visits := some [exVisitA] }],
    visits := some [] }

/-- A one-document collection holding `exParentDoc`. -/
def exStore : Store := [exParentDoc]

/-- The spec example's search key: `name: "Wanjiru Amina", isChild: true`. -/
def exChildSearch : VisitSearch :=
  { id_number := 555, name := "Wanjiru Amina", is_child := true,
    parent_name := some "Grace Wanjiru" }

/-- A sample `datetime.now()` value: Tue 16 Jul 2024, 15:51 local time. -/
def exTime : LocalTime :=
  { weekday := 1, day := 16, month := 6, year := 2024, hour := 15, minute := 51 }

/-- A child search key whose `parent_name` is the empty string. -/
def exEmptyParentSearch : VisitSearch :=
  { id_number := 7, name := "Kid Smith", is_child := true, parent_name := some "" }

/-- A visit upload whose search key has an empty `parent_name`. -/
def exEmptyParentUpload : VisitUpload :=
  { patient_search := exEmptyParentSearch, visit_details := exDetails }

/-- A child search key with `parent_name=None`. -/
def exNoParentSearch : VisitSearch :=
  { id_number := 7, name := "Kid Smith", is_child := true, parent_name := none }

/-- A visit upload whose search key lacks a parent name. -/
def exNoParentUpload : VisitUpload :=
  { patient_search := exNoParentSearch, visit_details := exDetails }

/-- An adult search key. -/
def exAdultSearch : VisitSearch :=
  { id_number := 42, name := "John Doe", is_child := false, parent_name := none }

/-- Vitals whose `blood_pressure` is not in "systolic/diastolic" format. -/
def exBadBpDetails : VisitDetails :=
  { exDetails with
    visit_vitals := { blood_pressure := "not-a-blood-pressure", weight := 14, temperature := 37 } }

/-- An adult visit upload carrying the malformed blood pressure. -/
def exBadBpUpload : VisitUpload :=
  { patient_search := exAdultSearch, visit_details := exBadBpDetails }

/-- A child visit upload for the stored dependent of `exParentDoc`. -/
def exChildUpload : VisitUpload :=
  { patient_search := exChildSearch, visit_details := exDetails }

/-- A stored adult with one visit from FacilityA. -/
def exAdultDoc : PatientDoc :=
  { id_number := 42, name := "John Doe", dependents := some [],
    visits := some [exVisitA] }

/-- A one-document collection holding `exAdultDoc`. -/
def exAdultStore : Store := [exAdultDoc]

/-- The documents a store call itself contributes must be well-formed for
well-formedness to be preserved: inserted documents and pushed children. -/
def StoreCall.wfCall : StoreCall → Bool
  | .insertDoc d => d.wf
  | .pushDependents _ c => c.wf
  | _ => true

end PatientConnect

namespace PatientConnect

/-- Claim C1: the name match used by both routes succeeds iff the lowercased
whitespace token sets coincide; `matches("Jane Doe","Doe Jane")` is true,
`matches("Jane Doe","Jane")` is false, and the match is symmetric (hence
insensitive to order and duplicates, being a set comparison). -/
theorem nameMatch_token_set_characterization :
    (∀ a b : String,
        namesMatch a b = true ↔ (∀ t, t ∈ lowerTokens a ↔ t ∈ lowerTokens b))
    ∧ namesMatch "Jane Doe" "Doe Jane" = true
    ∧ namesMatch "Jane Doe" "Jane" = false
    ∧ (∀ a b : String, namesMatch a b = namesMatch b a) := by
  refine ⟨?_, by decide, by decide, ?_⟩
  · intro a b
    simp only [namesMatch, decide_eq_true_eq, nameTokenSet, Finset.ext_iff,
      List.mem_toFinset]
  · intro a b
    simp only [namesMatch, decide_eq_decide]
    exact eq_comm

/-- Claim C1 (witness): the two spec examples, obtained from the
characterization theorem. -/
theorem nameMatch_token_set_characterization_wit :
    namesMatch "Jane Doe" "Doe Jane" = true ∧ namesMatch "Jane Doe" "Jane" = false :=
  ⟨nameMatch_token_set_characterization.2.1,
   nameMatch_token_set_characterization.2.2.1⟩

/-- Claim C10: the `get_parent_name` validator raises exactly when
`is_child` is true and `parent_name` is `None` or the literal string
`"null"`; every other value — the empty string included — is accepted. -/
theorem parentName_validator_rejects_exactly_none_or_null :
    ∀ s : VisitSearch,
      s.parentNameOk = false
        ↔ (s.is_child = true ∧ (s.parent_name = none ∨ s.parent_name = some "null")) := by
  intro s
  cases s with
  | mk idn nm ic pn =>
    cases ic <;> cases pn <;>
      simp [VisitSearch.parentNameOk]

/-- Claim C10 (witness): the validator fires on a concrete `None` parent
name, by the exactness theorem. -/
theorem parentName_validator_rejects_exactly_none_or_null_wit :
    VisitSearch.parentNameOk exNoParentSearch = false :=
  (parentName_validator_rejects_exactly_none_or_null exNoParentSearch).mpr
    ⟨rfl, Or.inl rfl⟩

/-- Claim C5 (counterexample): a child search key whose `parent_name` is
the empty string is NOT rejected — validation passes and the write path
reaches the store (a find followed by an insert on an empty collection) —
refuting the claim that an empty parent name is rejected before any store
access. -/
theorem empty_parent_name_not_rejected :
    VisitSearch.parentNameOk exEmptyParentSearch = true
    ∧ postVisit [] exUserA exTime exEmptyParentUpload
        = Except.ok [StoreCall.findById 7,
            StoreCall.insertDoc
              { id_number := 7, name := "",
                dependents :=
                  some [{ name := "Kid Smith",
                          visits := some [dumpVisit (stampVisit exUserA exTime exDetails)] }],
                visits := some [] }] :=
  ⟨rfl, rfl⟩

/-- Claim C5 (amended): a child request whose `parent_name` is `None` (or
the literal string `"null"`) is rejected with a ValidationError before any
store call; an empty string, however, is accepted. -/
theorem child_post_requires_parent_name :
    ∀ (store : Store) (u : User) (now : LocalTime) (visit : VisitUpload),
      visit.patient_search.is_child = true →
      (visit.patient_search.parent_name = none
        ∨ visit.patient_search.parent_name = some "null") →
      postVisit store u now visit = Except.error "ValidationError" := by
  intro store u now visit hc hpn
  have hbad : visit.fieldsOk = false := by
    have : visit.patient_search.parentNameOk = false := by
      unfold VisitSearch.parentNameOk
      rcases hpn with h | h <;> simp [hc, h]
    simp [VisitUpload.fieldsOk, this]
  simp [postVisit, hbad]

/-- Claim C5 (witness): posting a child visit with `parent_name=None`
fails with a ValidationError and no store call. -/
theorem child_post_requires_parent_name_wit :
    postVisit [] exUserA exTime exNoParentUpload = Except.error "ValidationError" :=
  child_post_requires_parent_name [] exUserA exTime exNoParentUpload rfl (Or.inl rfl)

/-- Claim C7 (counterexample): a visit whose vitals `blood_pressure` is
not in "systolic/diastolic" format passes validation and proceeds to the
store (find + insert on an empty collection), refuting the claimed
ValidationError. -/
theorem malformed_blood_pressure_not_rejected :
    VisitUpload.fieldsOk exBadBpUpload = true
    ∧ postVisit [] exUserA exTime exBadBpUpload
        = Except.ok [StoreCall.findById 42,
            StoreCall.insertDoc
              { id_number := 42, name := "John Doe", dependents := some [],
                visits := some [dumpVisit (stampVisit exUserA exTime exBadBpDetails)] }] :=
  ⟨rfl, rfl⟩

/-- Claim C7 (amended): the request models perform no blood-pressure
format check at all — the validation outcome of a postVisit body is
independent of the `blood_pressure` string. -/
theorem validation_ignores_blood_pressure :
    ∀ (v : VisitUpload) (bp : String),
      VisitUpload.fieldsOk
        { v with visit_details :=
            { v.visit_details with visit_vitals :=
                { v.visit_details.visit_vitals with blood_pressure := bp } } }
        = VisitUpload.fieldsOk v := by
  intro v bp
  rfl

/-- Claim C3: the read path returns exactly the subsequence of the
resolved ledger whose `facility_name` differs (case-sensitively) from the
requester's facility name, preserving order — stated for the filter, for
the adult and name-matched-dependent resolutions, and for the spec's
FacilityA/FacilityB child example. -/
theorem visibility_filter_exact :
    (∀ (vs : List VisitDetails) (f : String), (filterVisible vs f).Sublist vs)
    ∧ (∀ (vs : List VisitDetails) (f : String) (v : VisitDetails),
        v ∈ filterVisible vs f ↔ (v ∈ vs ∧ v.facility_name ≠ some f))
    ∧ (∀ (store : Store) (u : User) (p : VisitSearch) (doc : PatientDoc)
        (vs : List VisitDetails),
        p.is_child = false → findOne store p.id_number = some doc →
        doc.visits = some vs →
        (getPatient store u p).2 = Except.ok (filterVisible vs u.facility_name))
    ∧ (∀ (store : Store) (u : User) (p : VisitSearch) (doc : PatientDoc)
        (deps : List ChildDoc) (c : ChildDoc) (vs : List VisitDetails),
        p.is_child = true → findOne store p.id_number = some doc →
        doc.dependents = some deps →
        deps.find? (fun ch => namesMatch ch.name p.name) = some c →
        c.visits = some vs →
        (getPatient store u p).2 = Except.ok (filterVisible vs u.facility_name))
    ∧ (getPatient exStore exUserB exChildSearch).2 = Except.ok [exVisitA]
    ∧ (getPatient exStore exUserA exChildSearch).2 = Except.ok [] := by
  refine ⟨?_, ?_, ?_, ?_, rfl, rfl⟩
  · intro vs f
    exact List.filter_sublist vs
  · intro vs f v
    simp [filterVisible, List.mem_filter, bne_iff_ne]
  · intro store u p doc vs hc hf hv
    simp [getPatient, hc, hf, hv]
  · intro store u p doc deps c vs hc hf hd hfind hv
    simp [getPatient, hc, hf, hd, hfind, hv]

/-- Claim C3 (witness): the adult-resolution conjunct at a concrete store,
plus the concrete child example. -/
theorem visibility_filter_exact_wit :
    (getPatient exAdultStore exUserB exAdultSearch).2
      = Except.ok (filterVisible [exVisitA] "FacilityB") :=
  visibility_filter_exact.2.2.1 exAdultStore exUserB exAdultSearch exAdultDoc
    [exVisitA] rfl rfl rfl

/-- Claim C6: the read path issues no insert or update (its trace is
read-only and leaves the collection unchanged), and an unknown
`id_number` — or a child search with no name-matching stored dependent —
yields the success result `{'visits': []}`. -/
theorem read_path_never_writes_and_notFound_is_empty :
    (∀ (store : Store) (u : User) (p : VisitSearch),
        (∀ call ∈ (searchVisits store u p).1, call.isWrite = false)
        ∧ applyCalls store (searchVisits store u p).1 = store)
    ∧ (∀ (store : Store) (u : User) (p : VisitSearch),
        p.parentNameOk = true → findOne store p.id_number = none →
        (searchVisits store u p).2 = Except.ok [])
    ∧ (∀ (store : Store) (u : User) (p : VisitSearch) (doc : PatientDoc)
        (deps : List ChildDoc),
        p.parentNameOk = true → p.is_child = true →
        findOne store p.id_number = some doc → doc.dependents = some deps →
        (∀ c ∈ deps, namesMatch c.name p.name = false) →
        (searchVisits store u p).2 = Except.ok []) := by
  refine ⟨?_, ?_, ?_⟩
  · intro store u p
    cases hok : p.parentNameOk with
    | false => simp [searchVisits, hok, applyCalls]
    | true =>
      cases hic : p.is_child with
      | false =>
        simp [searchVisits, hok, getPatient, hic, applyCalls, applyCall,
          StoreCall.isWrite]
      | true =>
        simp [searchVisits, hok, getPatient, hic, applyCalls, applyCall,
          StoreCall.isWrite]
  · intro store u p hok hf
    cases hic : p.is_child with
    | false => simp [searchVisits, hok, getPatient, hic, hf]
    | true => simp [searchVisits, hok, getPatient, hic, hf]
  · intro store u p doc deps hok hic hf hd hnone
    have hfind : deps.find? (fun ch => namesMatch ch.name p.name) = none := by
      rw [List.find?_eq_none]
      intro c hc
      simp [hnone c hc]
    simp [searchVisits, hok, getPatient, hic, hf, hd, hfind]

/-- Claim C6 (witness): searching an empty collection succeeds with an
empty visit list. -/
theorem read_path_never_writes_and_notFound_is_empty_wit :
    (searchVisits [] exUserB exAdultSearch).2 = Except.ok [] :=
  read_path_never_writes_and_notFound_is_empty.2.1 [] exUserB exAdultSearch rfl rfl

/-- `find?` returns the head of the matching suffix when everything before
it fails the predicate. -/
theorem find_first_match {α : Type} (q : α → Bool) (pre : List α) (c : α)
    (post : List α) (hpre : ∀ a ∈ pre, q a = false) (hc : q c = true) :
    (pre ++ c :: post).find? q = some c := by
  induction pre with
  | nil => simp [List.find?_cons_of_pos, hc]
  | cons a pre ih =>
    have ha := hpre a (by simp)
    simp only [List.cons_append, List.find?_cons, ha]
    exact ih (fun x hx => hpre x (by simp [hx]))

/-- `updateFirst` rewrites exactly the head of the matching suffix when
everything before it fails the predicate. -/
theorem updateFirst_first {α : Type} (p : α → Bool) (f : α → α) (pre : List α)
    (c : α) (post : List α) (hpre : ∀ a ∈ pre, p a = false) (hc : p c = true) :
    updateFirst p f (pre ++ c :: post) = pre ++ f c :: post := by
  induction pre with
  | nil => simp [updateFirst, hc]
  | cons a pre ih =>
    have ha := hpre a (by simp)
    simp only [List.cons_append, updateFirst, ha, Bool.false_eq_true, if_false,
      List.cons.injEq, true_and]
    exact ih (fun x hx => hpre x (by simp [hx]))

/-- Claim C2: when a child post finds the parent document and some stored
dependent name-matches the incoming name, the writer issues exactly one
update — the positional push keyed by `id_number` and the stored name of
the first matching dependent — and that update appends the stamped record
to precisely that dependent's visits, appending no new Child. -/
theorem existing_child_single_positional_update :
    ∀ (store : Store) (u : User) (now : LocalTime) (visit : VisitUpload)
      (doc : PatientDoc) (pre : List ChildDoc) (c : ChildDoc) (post : List ChildDoc),
      visit.patient_search.is_child = true →
      findOne store visit.patient_search.id_number = some doc →
      doc.dependents = some (pre ++ c :: post) →
      (∀ a ∈ pre, namesMatch a.name visit.patient_search.name = false) →
      namesMatch c.name visit.patient_search.name = true →
      addVisit store u now visit
        = Except.ok [StoreCall.findById visit.patient_search.id_number,
            StoreCall.findById visit.patient_search.id_number,
            StoreCall.pushChildVisit visit.patient_search.id_number c.name
              (dumpVisit (stampVisit u now visit.visit_details))]
      ∧ updateFirst (fun ch => ch.name == c.name)
          (fun ch =>
            { ch with
              visits := pushOpt ch.visits (dumpVisit (stampVisit u now visit.visit_details)) })
          (pre ++ c :: post)
        = pre
            ++ { c with
                 visits := pushOpt c.visits (dumpVisit (stampVisit u now visit.visit_details)) }
            :: post := by
  intro store u now visit doc pre c post hchild hfound hdeps hpre hc
  have hfind : (pre ++ c :: post).find?
      (fun ch => namesMatch ch.name visit.patient_search.name) = some c :=
    find_first_match _ pre c post hpre hc
  refine ⟨?_, ?_⟩
  · simp [addVisit, hchild, hfound, hdeps, hfind]
  · refine updateFirst_first _ _ pre c post ?_ (by simp)
    intro a ha
    by_cases hname : a.name = c.name
    · exfalso
      have h1 := hpre a ha
      rw [hname, hc] at h1
      exact Bool.true_eq_false.mp h1
    · simp [hname]

/-- Claim C2 (witness): posting for the stored dependent "Amina Wanjiru"
under the name "Wanjiru Amina" issues exactly the positional push. -/
theorem existing_child_single_positional_update_wit :
    addVisit exStore exUserA exTime exChildUpload
      = Except.ok [StoreCall.findById 555, StoreCall.findById 555,
          StoreCall.pushChildVisit 555 "Amina Wanjiru"
            (dumpVisit (stampVisit exUserA exTime exDetails))] :=
  (existing_child_single_positional_update exStore exUserA exTime exChildUpload
    exParentDoc [] { name := "Amina Wanjiru", visits := some [exVisitA] } []
    rfl rfl rfl (by simp) (by decide)).1

/-- Case analysis on the write path: every successful `add_visit` run
issues one find (or two in the child branch) followed by exactly one
write, and the write is an insert of a well-formed document or a `$push`;
the new records are always the single stamped-and-dumped visit record. -/
theorem addVisit_cases (store : Store) (u : User) (now : LocalTime)
    (visit : VisitUpload) (tr : List StoreCall)
    (h : addVisit store u now visit = Except.ok tr) :
    (∃ idn d, tr = [StoreCall.findById idn, StoreCall.insertDoc d]
        ∧ PatientDoc.wf d = true
        ∧ PatientDoc.records d = [dumpVisit (stampVisit u now visit.visit_details)])
    ∨ (∃ idn, tr = [StoreCall.findById idn,
          StoreCall.pushVisits idn (dumpVisit (stampVisit u now visit.visit_details))])
    ∨ (∃ idn c, tr = [StoreCall.findById idn, StoreCall.findById idn,
          StoreCall.pushDependents idn c]
        ∧ ChildDoc.wf c = true
        ∧ ChildDoc.records c = [dumpVisit (stampVisit u now visit.visit_details)])
    ∨ (∃ idn nm, tr = [StoreCall.findById idn, StoreCall.findById idn,
          StoreCall.pushChildVisit idn nm
            (dumpVisit (stampVisit u now visit.visit_details))]) := by
  cases hchild : visit.patient_search.is_child with
  | true =>
    cases hfound : findOne store visit.patient_search.id_number with
    | none =>
      cases hpn : visit.patient_search.parent_name with
      | none => simp [addVisit, hchild, hfound, hpn] at h
      | some pn =>
        simp [addVisit, hchild, hfound, hpn] at h
        subst h
        exact Or.inl ⟨_, _, rfl, rfl, rfl⟩
    | some doc =>
      cases hdeps : doc.dependents with
      | none => simp [addVisit, hchild, hfound, hdeps] at h
      | some deps =>
        cases hlen : (deps.length == 0) with
        | true =>
          simp [addVisit, hchild, hfound, hdeps, hlen] at h
          subst h
          exact Or.inr (Or.inr (Or.inl ⟨_, _, rfl, rfl, rfl⟩))
        | false =>
          cases hfind : deps.find? (fun ch => namesMatch ch.name visit.patient_search.name) with
          | some c =>
            simp [addVisit, hchild, hfound, hdeps, hlen, hfind] at h
            subst h
            exact Or.inr (Or.inr (Or.inr ⟨_, _, rfl⟩))
          | none =>
            simp [addVisit, hchild, hfound, hdeps, hlen, hfind] at h
            subst h
            exact Or.inr (Or.inr (Or.inl ⟨_, _, rfl, rfl, rfl⟩))
  | false =>
    cases hfound : findOne store visit.patient_search.id_number with
    | none =>
      simp [addVisit, hchild, hfound] at h
      subst h
      exact Or.inl ⟨_, _, rfl, rfl, rfl⟩
    | some doc =>
      simp [addVisit, hchild, hfound] at h
      subst h
      exact Or.inr (Or.inl ⟨_, rfl⟩)

/-- The record that reaches the store carries the caller context's
facility fields and the formatted current time. -/
theorem dump_stamp_fields (u : User) (now : LocalTime) (vd : VisitDetails) :
    (dumpVisit (stampVisit u now vd)).facility_name = some u.facility_name
    ∧ (dumpVisit (stampVisit u now vd)).facility_type = some u.facility_type
    ∧ (dumpVisit (stampVisit u now vd)).visit_date = some (formatVisitDate now) :=
  ⟨rfl, rfl, rfl⟩

/-- Claim C4: every record a postVisit run writes to the store carries
`facility_name`/`facility_type` from the authenticated caller's context
and `visit_date` formatted from the server clock with
`strftime("%a %d %b %Y, %I:%M%p")`, regardless of what the caller supplied
in those three fields. -/
theorem posted_records_server_stamped :
    ∀ (store : Store) (u : User) (now : LocalTime) (visit : VisitUpload)
      (tr : List StoreCall),
      postVisit store u now visit = Except.ok tr →
      ∀ call ∈ tr, ∀ r ∈ call.newRecords,
        r.facility_name = some u.facility_name
        ∧ r.facility_type = some u.facility_type
        ∧ r.visit_date = some (formatVisitDate now) := by
  intro store u now visit tr h call hcall r hr
  have h' : addVisit store u now visit = Except.ok tr := by
    cases hv : visit.fieldsOk with
    | true => simpa [postVisit, hv] using h
    | false => simp [postVisit, hv] at h
  rcases addVisit_cases store u now visit tr h' with
    ⟨idn, d, rfl, _, hrec⟩ | ⟨idn, rfl⟩ | ⟨idn, c, rfl, _, hrec⟩ | ⟨idn, nm, rfl⟩ <;>
    simp only [List.mem_cons, List.mem_singleton, List.not_mem_nil] at hcall
  · rcases hcall with rfl | rfl | hfalse
    · simp [StoreCall.newRecords] at hr
    · rw [StoreCall.newRecords, hrec, List.mem_singleton] at hr
      subst hr
      exact dump_stamp_fields u now visit.visit_details
    · exact absurd hfalse (by simp)
  · rcases hcall with rfl | rfl | hfalse
    · simp [StoreCall.newRecords] at hr
    · rw [StoreCall.newRecords, List.mem_singleton] at hr
      subst hr
      exact dump_stamp_fields u now visit.visit_details
    · exact absurd hfalse (by simp)
  · rcases hcall with rfl | rfl | rfl | hfalse
    · simp [StoreCall.newRecords] at hr
    · simp [StoreCall.newRecords] at hr
    · rw [StoreCall.newRecords, hrec, List.mem_singleton] at hr
      subst hr
      exact dump_stamp_fields u now visit.visit_details
    · exact absurd hfalse (by simp)
  · rcases hcall with rfl | rfl | rfl | hfalse
    · simp [StoreCall.newRecords] at hr
    · simp [StoreCall.newRecords] at hr
    · rw [StoreCall.newRecords, List.mem_singleton] at hr
      subst hr
      exact dump_stamp_fields u now visit.visit_details
    · exact absurd hfalse (by simp)

/-- Claim C4 (witness): the record pushed by the concrete child post
carries FacilityA's context and the formatted sample time, even though
the caller supplied none of the three fields. -/
theorem posted_records_server_stamped_wit :
    (dumpVisit (stampVisit exUserA exTime exDetails)).facility_name = some "FacilityA"
    ∧ (dumpVisit (stampVisit exUserA exTime exDetails)).facility_type = some "hospital"
    ∧ (dumpVisit (stampVisit exUserA exTime exDetails)).visit_date
        = some (formatVisitDate exTime) :=
  posted_records_server_stamped exStore exUserA exTime exChildUpload _ rfl
    (StoreCall.pushChildVisit 555 "Amina Wanjiru"
      (dumpVisit (stampVisit exUserA exTime exDetails)))
    (by decide)
    (dumpVisit (stampVisit exUserA exTime exDetails)) (by simp [StoreCall.newRecords])

/-- A list extends itself. -/
theorem listExtends_refl {α : Type} [DecidableEq α] (xs : List α) :
    listExtends xs xs = true := by
  induction xs with
  | nil => rfl
  | cons x xs ih => simp [listExtends, ih]

/-- Appending only at the end is an extension. -/
theorem listExtends_append {α : Type} [DecidableEq α] (xs ys : List α) :
    listExtends xs (xs ++ ys) = true := by
  induction xs with
  | nil => rfl
  | cons x xs ih => simp [listExtends, ih]

/-- `$push` on an optional array extends it. -/
theorem optListExtends_push {α : Type} [DecidableEq α] (xs : Option (List α)) (v : α) :
    optListExtends xs (pushOpt xs v) = true := by
  cases xs with
  | none => rfl
  | some xs => simpa [optListExtends, pushOpt] using listExtends_append xs [v]

/-- An optional array extends itself. -/
theorem optListExtends_refl {α : Type} [DecidableEq α] (xs : Option (List α)) :
    optListExtends xs xs = true := by
  cases xs with
  | none => rfl
  | some xs => simpa [optListExtends] using listExtends_refl xs

/-- A dependent extends itself. -/
theorem childExtends_refl (c : ChildDoc) : childExtends c c = true := by
  simp [childExtends, optListExtends_refl]

/-- Pushing onto a dependent's visits extends that dependent. -/
theorem childExtends_push (c : ChildDoc) (v : VisitDetails) :
    childExtends c { c with visits := pushOpt c.visits v } = true := by
  simp [childExtends, optListExtends_push]

/-- A dependents list extends itself. -/
theorem depsExtends_refl (xs : List ChildDoc) : depsExtends xs xs = true := by
  induction xs with
  | nil => rfl
  | cons c cs ih => simp [depsExtends, childExtends_refl, ih]

/-- Appending dependents at the end is an extension. -/
theorem depsExtends_append (xs ys : List ChildDoc) :
    depsExtends xs (xs ++ ys) = true := by
  induction xs with
  | nil => rfl
  | cons c cs ih => simp [depsExtends, childExtends_refl, ih]

/-- Updating the first matching dependent with a child-extending function
extends the dependents list. -/
theorem depsExtends_updateFirst (p : ChildDoc → Bool) (f : ChildDoc → ChildDoc)
    (xs : List ChildDoc) (hf : ∀ c, p c = true → childExtends c (f c) = true) :
    depsExtends xs (updateFirst p f xs) = true := by
  induction xs with
  | nil => rfl
  | cons c cs ih =>
    by_cases hp : p c
    · simp [updateFirst, hp, depsExtends, hf c hp, depsExtends_refl]
    · simp [updateFirst, hp, depsExtends, childExtends_refl, ih]

/-- A patient document extends itself. -/
theorem docExtends_refl (d : PatientDoc) : docExtends d d = true := by
  simp [docExtends, optListExtends_refl]
  cases hd : d.dependents with
  | none => rfl
  | some xs => simpa [optDepsExtends] using depsExtends_refl xs

/-- Pushing onto a document's own visits extends it. -/
theorem docExtends_pushVisits (d : PatientDoc) (v : VisitDetails) :
    docExtends d { d with visits := pushOpt d.visits v } = true := by
  simp [docExtends, optListExtends_push]
  cases hd : d.dependents with
  | none => rfl
  | some xs => simpa [optDepsExtends] using depsExtends_refl xs

/-- Pushing a new dependent at the end of `dependents` extends the
document. -/
theorem docExtends_pushDependents (d : PatientDoc) (c : ChildDoc) :
    docExtends d { d with dependents := pushOpt d.dependents c } = true := by
  simp [docExtends, optListExtends_refl]
  cases hd : d.dependents with
  | none => rfl
  | some xs => simpa [optDepsExtends, pushOpt] using depsExtends_append xs [c]

/-- The positional child-visit push extends the document. -/
theorem docExtends_pushChildVisit (d : PatientDoc) (nm : String) (v : VisitDetails) :
    docExtends d
      { d with
        dependents := some (updateFirst (fun c => c.name == nm)
          (fun c => { c with visits := pushOpt c.visits v })
          (d.dependents.getD [])) } = true := by
  simp [docExtends, optListExtends_refl]
  cases hd : d.dependents with
  | none => rfl
  | some xs =>
    simpa [optDepsExtends] using
      depsExtends_updateFirst _ _ xs (fun c _ => childExtends_push c v)

/-- The collection extends itself. -/
theorem storeExtends_refl (s : Store) : storeExtends s s = true := by
  induction s with
  | nil => rfl
  | cons d ds ih => simp [storeExtends, docExtends_refl, ih]

/-- Inserting documents at the end extends the collection. -/
theorem storeExtends_append (s t : Store) : storeExtends s (s ++ t) = true := by
  induction s with
  | nil => rfl
  | cons d ds ih => simp [storeExtends, docExtends_refl, ih]

/-- `update_one` with a document-extending modification extends the
collection. -/
theorem storeExtends_updateFirst (p : PatientDoc → Bool) (f : PatientDoc → PatientDoc)
    (s : Store) (hf : ∀ d, p d = true → docExtends d (f d) = true) :
    storeExtends s (updateFirst p f s) = true := by
  induction s with
  | nil => rfl
  | cons d ds ih =>
    by_cases hp : p d
    · simp [updateFirst, hp, storeExtends, hf d hp, storeExtends_refl]
    · simp [updateFirst, hp, storeExtends, docExtends_refl, ih]

/-- Every single store call the routes can issue only extends the
collection: nothing is replaced, rewritten or removed. -/
theorem applyCall_extends (store : Store) (call : StoreCall) :
    storeExtends store (applyCall store call) = true := by
  cases call with
  | findById idn => exact storeExtends_refl store
  | insertDoc d => exact storeExtends_append store [d]
  | pushVisits idn v =>
      exact storeExtends_updateFirst _ _ store (fun d _ => docExtends_pushVisits d v)
  | pushDependents idn c =>
      exact storeExtends_updateFirst _ _ store (fun d _ => docExtends_pushDependents d c)
  | pushChildVisit idn nm v =>
      exact storeExtends_updateFirst _ _ store (fun d _ => docExtends_pushChildVisit d nm v)

/-- Claim C8: every successful write-path run issues exactly one mutating
store call — an insert or a single `$push` — and afterwards every
previously stored visit record is still present and unmodified: the new
collection extends the old one pointwise, with appends only. -/
theorem write_path_one_write_append_only :
    ∀ (store : Store) (u : User) (now : LocalTime) (visit : VisitUpload)
      (tr : List StoreCall),
      addVisit store u now visit = Except.ok tr →
      (tr.filter StoreCall.isWrite).length = 1
      ∧ storeExtends store (applyCalls store tr) = true := by
  intro store u now visit tr h
  rcases addVisit_cases store u now visit tr h with
    ⟨idn, d, rfl, _, _⟩ | ⟨idn, rfl⟩ | ⟨idn, c, rfl, _, _⟩ | ⟨idn, nm, rfl⟩
  · exact ⟨rfl, applyCall_extends store (StoreCall.insertDoc d)⟩
  · exact ⟨rfl, applyCall_extends store
      (StoreCall.pushVisits idn (dumpVisit (stampVisit u now visit.visit_details)))⟩
  · exact ⟨rfl, applyCall_extends store (StoreCall.pushDependents idn c)⟩
  · exact ⟨rfl, applyCall_extends store
      (StoreCall.pushChildVisit idn nm (dumpVisit (stampVisit u now visit.visit_details)))⟩

/-- Claim C8 (witness): the concrete child post issues one write and the
resulting collection extends the original. -/
theorem write_path_one_write_append_only_wit :
    (([StoreCall.findById 555, StoreCall.findById 555,
        StoreCall.pushChildVisit 555 "Amina Wanjiru"
          (dumpVisit (stampVisit exUserA exTime exDetails))].filter
        StoreCall.isWrite).length = 1)
    ∧ storeExtends exStore
        (applyCalls exStore
          [StoreCall.findById 555, StoreCall.findById 555,
           StoreCall.pushChildVisit 555 "Amina Wanjiru"
             (dumpVisit (stampVisit exUserA exTime exDetails))]) = true :=
  write_path_one_write_append_only exStore exUserA exTime exChildUpload _ rfl

/-- `List.all` is stable under updating the first match with a
property-preserving function. -/
theorem all_updateFirst {α : Type} (q p : α → Bool) (f : α → α) (xs : List α)
    (hall : xs.all q = true) (hf : ∀ x, q x = true → q (f x) = true) :
    (updateFirst p f xs).all q = true := by
  induction xs with
  | nil => rfl
  | cons x xs ih =>
    simp only [List.all_cons, Bool.and_eq_true] at hall
    by_cases hp : p x
    · simp [updateFirst, hp, List.all_cons, hf x hall.1, hall.2]
    · simp [updateFirst, hp, List.all_cons, hall.1, ih hall.2]

/-- Any store call whose own payload documents are well-formed preserves
well-formedness of the collection. -/
theorem applyCall_wf (store : Store) (call : StoreCall)
    (hs : storeWf store = true) (hc : call.wfCall = true) :
    storeWf (applyCall store call) = true := by
  simp only [storeWf] at hs
  cases call with
  | findById idn => simpa [storeWf, applyCall] using hs
  | insertDoc d =>
    simp only [StoreCall.wfCall] at hc
    simp [storeWf, applyCall, List.all_append, hs, hc]
  | pushVisits idn v =>
    simp only [storeWf, applyCall]
    refine all_updateFirst _ _ _ store hs ?_
    intro d hd
    simp only [PatientDoc.wf, Bool.and_eq_true] at hd ⊢
    exact ⟨⟨rfl, hd.1.2⟩, hd.2⟩
  | pushDependents idn c =>
    simp only [StoreCall.wfCall] at hc
    simp only [storeWf, applyCall]
    refine all_updateFirst _ _ _ store hs ?_
    intro d hd
    cases hdep : d.dependents with
    | none =>
      simp only [PatientDoc.wf, hdep, Option.isSome_none, Bool.and_eq_true] at hd
      exact absurd hd.1.2 (by simp)
    | some xs =>
      simp only [PatientDoc.wf, hdep, Option.isSome_some, Option.getD_some,
        Bool.and_eq_true] at hd
      simp only [PatientDoc.wf, Bool.and_eq_true]
      refine ⟨⟨hd.1.1, rfl⟩, ?_⟩
      simp [pushOpt, hdep, List.all_append, List.all_cons, hc, hd.2]
  | pushChildVisit idn nm v =>
    simp only [storeWf, applyCall]
    refine all_updateFirst _ _ _ store hs ?_
    intro d hd
    cases hdep : d.dependents with
    | none =>
      simp only [PatientDoc.wf, hdep, Option.isSome_none, Bool.and_eq_true] at hd
      exact absurd hd.1.2 (by simp)
    | some xs =>
      simp only [PatientDoc.wf, hdep, Option.isSome_some, Option.getD_some,
        Bool.and_eq_true] at hd
      simp only [PatientDoc.wf, Bool.and_eq_true]
      refine ⟨⟨hd.1.1, rfl⟩, ?_⟩
      simpa [hdep] using
        all_updateFirst ChildDoc.wf (fun c => c.name == nm)
          (fun c => { c with visits := pushOpt c.visits v }) xs hd.2
          (fun c _ => rfl)

/-- On a well-formed collection the read path never hits a missing key. -/
theorem getPatient_ok_of_wf (store : Store) (u : User) (p : VisitSearch)
    (hs : storeWf store = true) :
    ∃ vs, (getPatient store u p).2 = Except.ok vs := by
  have hwf : ∀ d : PatientDoc, findOne store p.id_number = some d → d.wf = true := by
    intro d hd
    have hmem : d ∈ store := List.mem_of_find?_eq_some hd
    simp only [storeWf, List.all_eq_true] at hs
    exact hs d hmem
  cases hchild : p.is_child with
  | false =>
    cases hfound : findOne store p.id_number with
    | none => exact ⟨[], by simp [getPatient, hchild, hfound]⟩
    | some doc =>
      have hdoc := hwf doc hfound
      simp only [PatientDoc.wf, Bool.and_eq_true] at hdoc
      rcases Option.isSome_iff_exists.mp hdoc.1.1 with ⟨vs, hvs⟩
      exact ⟨filterVisible vs u.facility_name,
        by simp [getPatient, hchild, hfound, hvs]⟩
  | true =>
    cases hfound : findOne store p.id_number with
    | none => exact ⟨[], by simp [getPatient, hchild, hfound]⟩
    | some doc =>
      have hdoc := hwf doc hfound
      simp only [PatientDoc.wf, Bool.and_eq_true] at hdoc
      rcases Option.isSome_iff_exists.mp hdoc.1.2 with ⟨deps, hdeps⟩
      cases hfind : deps.find? (fun ch => namesMatch ch.name p.name) with
      | none => exact ⟨[], by simp [getPatient, hchild, hfound, hdeps, hfind]⟩
      | some c =>
        have hcmem : c ∈ deps := List.mem_of_find?_eq_some hfind
        have hcwf : ChildDoc.wf c = true := by
          have h3 := hdoc.2
          rw [hdeps] at h3
          simp only [Option.getD_some, List.all_eq_true] at h3
          exact h3 c hcmem
        rcases Option.isSome_iff_exists.mp hcwf with ⟨vs, hvs⟩
        exact ⟨filterVisible vs u.facility_name,
          by simp [getPatient, hchild, hfound, hdeps, hfind, hvs]⟩

/-- Claim C9: every document the write path creates carries both a
`visits` and a `dependents` list, no write removes them, and on any
collection written solely by this system the read path's unguarded key
accesses never fail. -/
theorem documents_always_carry_ledgers :
    storeWf [] = true
    ∧ (∀ (store : Store) (u : User) (now : LocalTime) (visit : VisitUpload)
        (tr : List StoreCall),
        addVisit store u now visit = Except.ok tr →
          (∀ d : PatientDoc, StoreCall.insertDoc d ∈ tr → d.wf = true)
          ∧ (storeWf store = true → storeWf (applyCalls store tr) = true))
    ∧ (∀ (store : Store) (u : User) (p : VisitSearch),
        storeWf store = true → ∃ vs, (getPatient store u p).2 = Except.ok vs) := by
  refine ⟨rfl, ?_, getPatient_ok_of_wf⟩
  intro store u now visit tr h
  rcases addVisit_cases store u now visit tr h with
    ⟨idn, d, rfl, hwf, _⟩ | ⟨idn, rfl⟩ | ⟨idn, c, rfl, hwf, _⟩ | ⟨idn, nm, rfl⟩
  · constructor
    · intro d' hd'
      simp only [List.mem_cons, List.not_mem_nil, or_false] at hd'
      rcases hd' with hd' | hd'
      · exact absurd hd' (by simp)
      · rw [StoreCall.insertDoc.injEq] at hd'
        subst hd'
        exact hwf
    · intro hstore
      exact applyCall_wf store (StoreCall.insertDoc d) hstore hwf
  · constructor
    · intro d' hd'
      simp at hd'
    · intro hstore
      exact applyCall_wf store
        (StoreCall.pushVisits idn (dumpVisit (stampVisit u now visit.visit_details)))
        hstore rfl
  · constructor
    · intro d' hd'
      simp at hd'
    · intro hstore
      exact applyCall_wf store (StoreCall.pushDependents idn c) hstore hwf
  · constructor
    · intro d' hd'
      simp at hd'
    · intro hstore
      exact applyCall_wf store
        (StoreCall.pushChildVisit idn nm (dumpVisit (stampVisit u now visit.visit_details)))
        hstore rfl

/-- Claim C9 (witness): the concrete child post keeps the collection
well-formed and the concrete read succeeds. -/
theorem documents_always_carry_ledgers_wit :
    storeWf (applyCalls exStore
      [StoreCall.findById 555, StoreCall.findById 555,
       StoreCall.pushChildVisit 555 "Amina Wanjiru"
         (dumpVisit (stampVisit exUserA exTime exDetails))]) = true
    ∧ ∃ vs, (getPatient exStore exUserB exChildSearch).2 = Except.ok vs :=
  ⟨(documents_always_carry_ledgers.2.1 exStore exUserA exTime exChildUpload _ rfl).2 rfl,
   documents_always_carry_ledgers.2.2 exStore exUserB exChildSearch rfl⟩

end PatientConnect
